import Mathlib

/-!
Shallow embedding of the EPS_Calendar repository
(src/build_earnings_cache.py and src/backfill_earnings_history.py).

External collaborators (the `json` and `csv` libraries, the file system,
the HTTP client and the clock) are modelled explicitly:
  * JSON values are modelled by `JVal` on the fragment the repository
    exercises (null, booleans, integers, strings, arrays, objects);
    `loads` mirrors `json.loads` on that fragment (floats and numeric
    exponents, as well as unicode escapes in strings, are outside the
    modelled fragment), `dumps` mirrors `json.dumps` with its default
    separators and `ensure_ascii=False` as the source passes it.
  * The file system is a `World`: an association list of files keyed by
    path, a set of paths whose writes fail (modelling `OSError` on
    `open`/`write`), and an append-only trace of the write events in the
    order they were performed.
  * The HTTP response and the UTC clock reading are inputs of the run.
-/

/-! ## JSON value model (the `json` library collaborator) -/

mutual

inductive JVal where
  | jnull : JVal
  | jbool : Bool → JVal
  | jnum : Int → JVal
  | jstr : String → JVal
  | jarr : JArr → JVal
  | jobj : JObj → JVal

inductive JArr where
  | nil : JArr
  | cons : JVal → JArr → JArr

inductive JObj where
  | nil : JObj
  | cons : String → JVal → JObj → JObj

end

/-- Skip JSON whitespace, as `json.loads` does between tokens. -/
def jskipWs : List Char → List Char
  | [] => []
  | c :: cs =>
    if c = ' ' ∨ c = '\t' ∨ c = '\n' ∨ c = '\r' then jskipWs cs else c :: cs

/-- Parse the body of a JSON string after the opening quote.  Handles the
short escapes; `\uXXXX` escapes are outside the modelled fragment. -/
def jparseStringBody : List Char → Option (String × List Char)
  | [] => none
  | '\x22' :: cs => some ("", cs)
  | '\x5c' :: c :: cs => do
    let e ←
      (match c with
       | '\x22' => some "\x22"
       | '\x5c' => some "\x5c"
       | '/' => some "/"
       | 'n' => some "\n"
       | 't' => some "\t"
       | 'r' => some "\r"
       | 'b' => some "\x08"
       | 'f' => some "\x0c"
       | _ => none)
    let (rest, cs') ← jparseStringBody cs
    some (e ++ rest, cs')
  | c :: cs => do
    let (rest, cs') ← jparseStringBody cs
    some (String.singleton c ++ rest, cs')

/-- Longest prefix of decimal digits. -/
def jtakeDigits : List Char → (List Char × List Char)
  | [] => ([], [])
  | c :: cs =>
    if c.isDigit then
      let (ds, rest) := jtakeDigits cs
      (c :: ds, rest)
    else ([], c :: cs)

/-- Numeric value of a list of decimal digits. -/
def digitsVal (ds : List Char) : Nat :=
  ds.foldl (fun acc c => 10 * acc + (c.toNat - 48)) 0

/-- Parse a JSON integer literal from a digit prefix, rejecting leading
zeros as the JSON grammar does. -/
def jparseNat (cs : List Char) : Option (Nat × List Char) :=
  match jtakeDigits cs with
  | ([], _) => none
  | ('0' :: _ :: _, _) => none
  | (ds, rest) => some (digitsVal ds, rest)

mutual

/-- Recursive-descent JSON value parser; the fuel bounds the number of
grammar productions and is chosen large enough at the `loads` wrapper. -/
def jparseVal : Nat → List Char → Option (JVal × List Char)
  | 0, _ => none
  | Nat.succ f, cs =>
    match jskipWs cs with
    | [] => none
    | 'n' :: 'u' :: 'l' :: 'l' :: rest => some (.jnull, rest)
    | 't' :: 'r' :: 'u' :: 'e' :: rest => some (.jbool true, rest)
    | 'f' :: 'a' :: 'l' :: 's' :: 'e' :: rest => some (.jbool false, rest)
    | '\x22' :: rest => do
      let (s, rest') ← jparseStringBody rest
      some (.jstr s, rest')
    | '[' :: rest => jparseArr f (jskipWs rest)
    | '\x7b' :: rest => jparseObj f (jskipWs rest)
    | '-' :: rest => do
      let (n, rest') ← jparseNat rest
      some (.jnum (-(Int.ofNat n)), rest')
    | c :: rest =>
      if c.isDigit then do
        let (n, rest') ← jparseNat (c :: rest)
        some (.jnum (Int.ofNat n), rest')
      else none

/-- Parse the inside of an array after `[` (whitespace already skipped). -/
def jparseArr : Nat → List Char → Option (JVal × List Char)
  | 0, _ => none
  | Nat.succ f, cs =>
    match cs with
    | ']' :: rest => some (.jarr .nil, rest)
    | _ => do
      let (v, cs₁) ← jparseVal f cs
      let (vs, cs₂) ← jparseArrRest f (jskipWs cs₁)
      match vs with
      | .jarr a => some (.jarr (.cons v a), cs₂)
      | _ => none

/-- Parse `, value ... ]` continuations of an array. -/
def jparseArrRest : Nat → List Char → Option (JVal × List Char)
  | 0, _ => none
  | Nat.succ f, cs =>
    match cs with
    | ']' :: rest => some (.jarr .nil, rest)
    | ',' :: rest => do
      let (v, cs₁) ← jparseVal f rest
      let (vs, cs₂) ← jparseArrRest f (jskipWs cs₁)
      match vs with
      | .jarr a => some (.jarr (.cons v a), cs₂)
      | _ => none
    | _ => none

/-- Parse the inside of an object after the opening brace (whitespace
already skipped). -/
def jparseObj : Nat → List Char → Option (JVal × List Char)
  | 0, _ => none
  | Nat.succ f, cs =>
    match cs with
    | '\x7d' :: rest => some (.jobj .nil, rest)
    | '\x22' :: rest => do
      let (k, cs₁) ← jparseStringBody rest
      match jskipWs cs₁ with
      | ':' :: cs₂ => do
        let (v, cs₃) ← jparseVal f cs₂
        let (vs, cs₄) ← jparseObjRest f (jskipWs cs₃)
        match vs with
        | .jobj o => some (.jobj (.cons k v o), cs₄)
        | _ => none
      | _ => none
    | _ => none

/-- Parse `, "key": value ...` continuations of an object. -/
def jparseObjRest : Nat → List Char → Option (JVal × List Char)
  | 0, _ => none
  | Nat.succ f, cs =>
    match cs with
    | '\x7d' :: rest => some (.jobj .nil, rest)
    | ',' :: rest =>
      match jskipWs rest with
      | '\x22' :: cs₀ => do
        let (k, cs₁) ← jparseStringBody cs₀
        match jskipWs cs₁ with
        | ':' :: cs₂ => do
          let (v, cs₃) ← jparseVal f cs₂
          let (vs, cs₄) ← jparseObjRest f (jskipWs cs₃)
          match vs with
          | .jobj o => some (.jobj (.cons k v o), cs₄)
          | _ => none
        | _ => none
      | _ => none
    | _ => none

end

/-- Model of `json.loads`: parse a full document, rejecting trailing
garbage, as the Python parser does. -/
def loads (s : String) : Option JVal :=
  match jparseVal (2 * s.length + 4) s.data with
  | some (v, rest) => if jskipWs rest = [] then some v else none
  | none => none

/-- Two-digit lowercase hex rendering used for control-character escapes. -/
def hexDigit (n : Nat) : Char :=
  if n < 10 then Char.ofNat (48 + n) else Char.ofNat (87 + n)

/-- Escape one character the way `json.dumps` does with
`ensure_ascii=False` (only quotes, backslashes and control characters are
escaped). -/
def jescapeChar (c : Char) : String :=
  if c = '\x22' then "\x5c\x22"
  else if c = '\x5c' then "\x5c\x5c"
  else if c = '\n' then "\x5cn"
  else if c = '\t' then "\x5ct"
  else if c = '\r' then "\x5cr"
  else if c = '\x08' then "\x5cb"
  else if c = '\x0c' then "\x5cf"
  else if c.toNat < 32 then
    "\x5cu00" ++ String.singleton (hexDigit (c.toNat / 16)) ++
      String.singleton (hexDigit (c.toNat % 16))
  else String.singleton c

/-- Escape a whole string for `dumps`. -/
def jescape (s : String) : String :=
  s.data.foldr (fun c acc => jescapeChar c ++ acc) ""

mutual

/-- Model of `json.dumps` with the default separators `", "` and `": "`
and `ensure_ascii=False`, exactly as both source files call it. -/
def dumps : JVal → String
  | .jnull => "null"
  | .jbool true => "true"
  | .jbool false => "false"
  | .jnum n => toString n
  | .jstr s => "\x22" ++ jescape s ++ "\x22"
  | .jarr a => "[" ++ dumpsArr a ++ "]"
  | .jobj o => "\x7b" ++ dumpsObj o ++ "\x7d"

/-- Comma-separated array elements. -/
def dumpsArr : JArr → String
  | .nil => ""
  | .cons v .nil => dumps v
  | .cons v rest => dumps v ++ ", " ++ dumpsArr rest

/-- Comma-separated object entries. -/
def dumpsObj : JObj → String
  | .nil => ""
  | .cons k v .nil => "\x22" ++ jescape k ++ "\x22: " ++ dumps v
  | .cons k v rest =>
      "\x22" ++ jescape k ++ "\x22: " ++ dumps v ++ ", " ++ dumpsObj rest

end

/-- Dictionary lookup on a parsed object.  Python builds its `dict` by
assigning keys in order, so a duplicated key keeps its last value; the
lookup therefore prefers the last occurrence. -/
def jget : JObj → String → Option JVal
  | .nil, _ => none
  | .cons k v rest, q =>
    match jget rest q with
    | some r => some r
    | none => if k = q then some v else none

/-- Python truthiness of a parsed JSON value (`None`, `False`, `0`, empty
string and empty containers are falsy). -/
def jtruthy : JVal → Bool
  | .jnull => false
  | .jbool b => b
  | .jnum n => decide (n ≠ 0)
  | .jstr s => decide (s ≠ "")
  | .jarr .nil => false
  | .jarr _ => true
  | .jobj .nil => false
  | .jobj _ => true

/-- Model of Python `str()` on a parsed JSON value, as used by the
f-strings and the raw-archive fallback.  For containers (which the source
guards away with `isinstance(old_data, (dict, list))` before reaching
`str`) the model reuses `dumps`. -/
def pyStr : JVal → String
  | .jstr s => s
  | .jnum n => toString n
  | .jnull => "None"
  | .jbool true => "True"
  | .jbool false => "False"
  | v => dumps v

/-- Whether a parsed value is a `dict` or a `list`, mirroring
`isinstance(old_data, (dict, list))`. -/
def isContainer : JVal → Bool
  | .jarr _ => true
  | .jobj _ => true
  | _ => false


/-! ## String primitives

Python's `str.strip`, `str.upper`, `str.lower`, `str.split` and
`str.startswith` are modelled by structurally recursive functions over the
character list (the ASCII fragment of Python's unicode behavior, which is
all the repository's data exercises). -/

/-- Python `str.strip()` whitespace set (ASCII fragment). -/
def pyIsSpace (c : Char) : Bool :=
  c = ' ' || c = '\t' || c = '\n' || c = '\r' || c = '\x0b' || c = '\x0c'

/-- Model of Python `str.strip()`. -/
def pytrim (s : String) : String :=
  ⟨((s.data.dropWhile pyIsSpace).reverse.dropWhile pyIsSpace).reverse⟩

/-- Model of Python `str.upper()` (ASCII fragment). -/
def pyupper (s : String) : String :=
  ⟨s.data.map Char.toUpper⟩

/-- Model of Python `str.lower()` (ASCII fragment). -/
def pylower (s : String) : String :=
  ⟨s.data.map Char.toLower⟩

/-- Split a character list at every occurrence of a separator char. -/
def splitOnCharL (sep : Char) : List Char → List (List Char)
  | [] => [[]]
  | c :: rest =>
    let r := splitOnCharL sep rest
    if c = sep then [] :: r
    else
      match r with
      | [] => [[c]]
      | g :: gs => (c :: g) :: gs

/-- Model of Python `str.split(sep)` for a one-character separator (the
only kind the repository uses). -/
def pysplitOnChar (sep : Char) (s : String) : List String :=
  (splitOnCharL sep s.data).map (fun g => ⟨g⟩)

/-- Model of `str.startswith`. -/
def pystartsWith (s pre : String) : Bool :=
  pre.data.isPrefixOf s.data

/-- Drop one trailing carriage return, as the `csv` line reader does. -/
def stripCR (s : String) : String :=
  if s.data.getLast? = some '\r' then ⟨s.data.dropLast⟩ else s


/-- Computable lexicographic comparison of character lists by code point,
the order Python's `sorted` uses on strings.  (Agrees with `List` order:
see the lemmas accompanying the C8 theorem.) -/
def lexLe : List Char → List Char → Bool
  | [], _ => true
  | _ :: _, [] => false
  | a :: as, b :: bs =>
    if a < b then true
    else if b < a then false
    else lexLe as bs

/-- Computable model of Python string comparison `a <= b`. -/
def pyle (a b : String) : Bool :=
  lexLe a.data b.data

/-- Decidable equality for `Except` results. -/
instance {ε α : Type} [DecidableEq ε] [DecidableEq α] : DecidableEq (Except ε α) :=
  fun a b =>
    match a, b with
    | .ok x, .ok y => if h : x = y then .isTrue (by simp [h]) else .isFalse (by simp [h])
    | .error x, .error y => if h : x = y then .isTrue (by simp [h]) else .isFalse (by simp [h])
    | .ok _, .error _ => .isFalse (by simp)
    | .error _, .ok _ => .isFalse (by simp)

/-! ## Error and file-system models -/

/-- The Python exception classes the two scripts can raise or encounter.
`providerError msg` embeds the distinguished
`raise RuntimeError(f"Provider error: ...")` site, carrying the extracted
message; `configError` embeds the `sys.exit(1)` taken when the API key is
missing; `osError` models an `OSError` from `open`/`write`;
`jsonDecodeError` models an uncaught `json.JSONDecodeError`. -/
inductive PyErr where
  | fileNotFound : String → PyErr
  | runtimeError : String → PyErr
  | providerError : String → PyErr
  | indexError : PyErr
  | osError : PyErr
  | configError : PyErr
  | requestError : PyErr
  | httpError : PyErr
  | jsonDecodeError : PyErr
deriving DecidableEq

/-- The durable state the scripts touch: files keyed by path, the set of
paths whose writes fail (disk-fault model), and the ordered trace of write
events actually performed. -/
structure World where
  files : List (String × String)
  faults : List String
  trace : List (String × String)
deriving DecidableEq

/-- Content of the file at a path, `none` when absent (this is both
`os.path.exists` and `open(...).read()` in the model). -/
def getFile (p : String) : List (String × String) → Option String
  | [] => none
  | (q, c) :: rest => if q = p then some c else getFile p rest

/-- Replace the content at a path, or append the file if absent. -/
def setFile (p c : String) : List (String × String) → List (String × String)
  | [] => [(p, c)]
  | (q, d) :: rest => if q = p then (p, c) :: rest else (q, d) :: setFile p c rest

/-- Model of `open(path, "w")` + write: fails (raising `OSError`, leaving
the world unchanged) exactly on faulted paths, otherwise updates the file
and appends a write event to the trace. -/
def writeFile (p c : String) (w : World) : World × Option PyErr :=
  if p ∈ w.faults then (w, some .osError)
  else ({ files := setFile p c w.files, faults := w.faults,
          trace := w.trace ++ [(p, c)] }, none)

/-! ## Data model and configuration constants (from the source) -/

def UNIVERSE_CSV : String := "eps_calendar_universe.csv"

def CACHE_JSON : String := "earnings_cache.json"

def ARCHIVE_DIR : String := "earnings_history"

def HISTORY_DIR : String := "earnings_history"

def MIN_RAW_ROWS : Nat := 100

def MIN_FILTERED_ROWS : Nat := 10

def DAYS_TO_BACKFILL : Nat := 30

/-- A provider row as produced by `csv.DictReader`: the six fields the
scripts read through `r.get(...)`; a missing column (or a row shorter than
the header) yields `none`, matching `DictReader`'s `restval=None`. -/
structure RawRow where
  symbol : Option String
  name : Option String
  reportDate : Option String
  fiscalDateEnding : Option String
  estimate : Option String
  currency : Option String
deriving DecidableEq

/-- A normalized row as appended by `build_filtered_rows` /
`filter_to_universe`: trimmed strings, `estimate` `None` when empty. -/
structure FilteredRow where
  symbol : String
  name : String
  reportDate : String
  fiscalDateEnding : String
  estimate : Option String
  currency : String
deriving DecidableEq

/-- The JSON object `json.dump` writes for one filtered row, with the
dict's insertion-ordered keys. -/
def rowToJ (r : FilteredRow) : JVal :=
  .jobj (.cons "symbol" (.jstr r.symbol)
    (.cons "name" (.jstr r.name)
      (.cons "reportDate" (.jstr r.reportDate)
        (.cons "fiscalDateEnding" (.jstr r.fiscalDateEnding)
          (.cons "estimate"
              (match r.estimate with
               | none => .jnull
               | some e => .jstr e)
            (.cons "currency" (.jstr r.currency) .nil))))))

/-- Helper turning a row list into a JSON array value. -/
def rowsToJArr : List FilteredRow → JArr
  | [] => .nil
  | r :: rest => .cons (rowToJ r) (rowsToJArr rest)

/-- The exact text `json.dump(rows, f, ensure_ascii=False)` writes for a
list of filtered rows. -/
def dumpRows (rows : List FilteredRow) : String :=
  dumps (.jarr (rowsToJArr rows))

/-! ## Universe Loader (`load_universe`, identical in both scripts) -/

/-- The ticker-collecting loop of `load_universe`: skips empty rows,
indexes `row[ticker_idx]` (raising `IndexError` when the row is non-empty
but too short, exactly as Python list indexing does), trims, uppercases,
and drops empty cells and the placeholder tokens. -/
def collect_tickers (idx : Nat) : List (List String) → Except PyErr (List String)
  | [] => .ok []
  | row :: rest =>
    if row = [] then collect_tickers idx rest
    else
      match row[idx]? with
      | none => .error .indexError
      | some cell =>
        let t := pyupper (pytrim cell)
        if t = "" ∨ t = "TICKER" ∨ t = "..." then collect_tickers idx rest
        else do
          let ts ← collect_tickers idx rest
          .ok (t :: ts)

/-- `load_universe` from both scripts (they are line-for-line identical).
The input models the CSV file: `none` when the file is missing, otherwise
the parsed rows.  `sorted(set(tickers))` is modelled by
`insertionSort` of `dedup` (Python's `sorted` on strings is the same
lexicographic order as `String` order here). -/
def load_universe (file : Option (List (List String))) : Except PyErr (List String) :=
  match file with
  | none => .error (.fileNotFound ("Universe file not found: " ++ UNIVERSE_CSV))
  | some [] => .error (.runtimeError "Universe CSV is empty")
  | some (r0 :: rest) =>
    let header := r0.map (fun c => pylower (pytrim c))
    let ticker_idx := if "ticker" ∈ header then header.indexOf "ticker" else 0
    let body := if "ticker" ∈ header then rest else r0 :: rest
    match collect_tickers ticker_idx body with
    | .error e => .error e
    | .ok ts =>
      if ts = [] then .error (.runtimeError "No tickers found in universe CSV")
      else .ok ((ts.dedup).insertionSort (fun a b => pyle a b = true))

/-! ## Calendar Fetcher -/

/-- Split the response text into CSV lines (the `csv` collaborator is
modelled on the unquoted comma-separated fragment the provider emits). -/
def csvLines (text : String) : List String :=
  (pysplitOnChar '\n' text).map stripCR

/-- Split one CSV line into cells. -/
def splitCsvLine (s : String) : List String :=
  pysplitOnChar ',' s

/-- Index of the last occurrence of a key in the header, mirroring how
`dict(zip(fieldnames, row))` lets a duplicated column name keep its last
value. -/
def lastIdxOf (k : String) : List String → Option Nat
  | [] => none
  | x :: xs =>
    match lastIdxOf k xs with
    | some j => some (j + 1)
    | none => if x = k then some 0 else none

/-- `row.get(key)` on a `csv.DictReader` row: the cell under the last
occurrence of the column name, `None` when the row is too short. -/
def pyGet (header cells : List String) (k : String) : Option String :=
  match lastIdxOf k header with
  | none => none
  | some j => cells[j]?

/-- Build the `DictReader` row mapping restricted to the six fields the
scripts read. -/
def dictRowOf (header : List String) (cells : List String) : RawRow :=
  { symbol := pyGet header cells "symbol",
    name := pyGet header cells "name",
    reportDate := pyGet header cells "reportDate",
    fiscalDateEnding := pyGet header cells "fiscalDateEnding",
    estimate := pyGet header cells "estimate",
    currency := pyGet header cells "currency" }

/-- The message extraction
`obj.get("Note") or obj.get("Error Message") or obj.get("Information") or text`:
first truthy field value in order, else the raw text. -/
def firstTruthyField (o : JObj) : List String → Option JVal
  | [] => none
  | k :: ks =>
    match jget o k with
    | some v => if jtruthy v then some v else firstTruthyField o ks
    | none => firstTruthyField o ks

/-- The provider-error message carried by the `RuntimeError` raised on a
JSON body. -/
def providerMsgOf (v : JVal) (text : String) : String :=
  match v with
  | .jobj o =>
    match firstTruthyField o ["Note", "Error Message", "Information"] with
    | some m => pyStr m
    | none => text
  | _ => text

/-- Shared CSV branch of the two fetchers: parse the lines, check the
header for `symbol`/`reportDate` (case-insensitively), and check the
raw-row minimum.  Parameterized by the two error messages, which differ
between the scripts. -/
def fetchCsvBranch (schemaMsg : String) (text : String) : Except PyErr (List RawRow) :=
  let lines := csvLines text
  let header := splitCsvLine (lines.headD "")
  let dataRows := ((lines.drop 1).filter (fun l => l ≠ "")).map splitCsvLine
  let rows := dataRows.map (dictRowOf header)
  let headersLower := header.map (fun h => pylower (pytrim h))
  if "symbol" ∉ headersLower ∨ "reportdate" ∉ headersLower then
    .error (.runtimeError schemaMsg)
  else if rows.length < MIN_RAW_ROWS then
    .error (.runtimeError ("Provider returned too few rows (" ++
      toString rows.length ++ " < " ++ toString MIN_RAW_ROWS ++
      "). Likely rate limit / partial data. Refusing to update cache."))
  else .ok rows

/-- `fetch_earnings_calendar_from_api` from build_earnings_cache.py.  The
input models the HTTP exchange: `none` for a transport exception from
`requests.get`, otherwise the status code and body text. -/
def fetch_earnings_calendar_from_api (resp : Option (Nat × String)) :
    Except PyErr (List RawRow) :=
  match resp with
  | none => .error .requestError
  | some (status, rawBody) =>
    if 400 ≤ status then .error .httpError
    else
      let text := pytrim rawBody
      if text = "" then .error (.runtimeError "Empty response from provider.")
      else if pystartsWith text "\x7b" then
        match loads text with
        | none => .error (.runtimeError "Provider returned JSON that could not be parsed.")
        | some obj => .error (.providerError (providerMsgOf obj text))
      else
        fetchCsvBranch ("Provider CSV missing expected \x27symbol\x27/\x27reportDate\x27 columns. Response may be an error or format change.") text

/-- `fetch_calendar_once` from backfill_earnings_history.py: identical
except that `json.loads` is not wrapped in try/except (an unparseable JSON
body raises an uncaught `json.JSONDecodeError`) and the schema message
differs. -/
def fetch_calendar_once (resp : Option (Nat × String)) :
    Except PyErr (List RawRow) :=
  match resp with
  | none => .error .requestError
  | some (status, rawBody) =>
    if 400 ≤ status then .error .httpError
    else
      let text := pytrim rawBody
      if text = "" then .error (.runtimeError "Empty response from provider.")
      else if pystartsWith text "\x7b" then
        match loads text with
        | none => .error .jsonDecodeError
        | some obj => .error (.providerError (providerMsgOf obj text))
      else
        fetchCsvBranch "CSV missing \x27symbol\x27/\x27reportDate\x27 columns." text

/-! ## Universe Filter (`build_filtered_rows` / `filter_to_universe`) -/

/-- `build_filtered_rows` from build_earnings_cache.py.  The loop keeps a
row when its trimmed+uppercased symbol is non-empty and in the universe
set and its trimmed reportDate is non-empty, normalizing all string fields
and turning an empty estimate into `None`.  (`filter_to_universe` in the
backfill script is the same transform; see `filter_to_universe` below.) -/
def build_filtered_rows (univ : List String) : List RawRow → List FilteredRow
  | [] => []
  | r :: rest =>
    let symbol := pyupper (pytrim ((r.symbol).getD ""))
    if symbol = "" then build_filtered_rows univ rest
    else if symbol ∉ univ then build_filtered_rows univ rest
    else
      let report_date := pytrim ((r.reportDate).getD "")
      if report_date = "" then build_filtered_rows univ rest
      else
        { symbol := symbol,
          name := pytrim ((r.name).getD ""),
          reportDate := report_date,
          fiscalDateEnding := pytrim ((r.fiscalDateEnding).getD ""),
          estimate :=
            (let e := pytrim ((r.estimate).getD "")
             if e = "" then none else some e),
          currency := pytrim ((r.currency).getD "") } ::
          build_filtered_rows univ rest

/-- `filter_to_universe` from backfill_earnings_history.py performs the
same filtering and normalization (the two loops differ only in combining
the two symbol guards into one `if` and in building the record with the
same fields); the model shares the definition. -/
def filter_to_universe (univ : List String) (raw_rows : List RawRow) :
    List FilteredRow :=
  build_filtered_rows univ raw_rows

/-- Spec-side predicate (from the spec's words, for the refinement
statement of C5): a row survives iff its uppercased trimmed symbol is a
Universe member and its trimmed reportDate is non-empty. -/
def keepsRow (univ : List String) (r : RawRow) : Bool :=
  decide (pyupper (pytrim ((r.symbol).getD "")) ∈ univ) &&
    decide (pytrim ((r.reportDate).getD "") ≠ "")

/-- Spec-side normalizer (from the spec's words, for the refinement
statement of C5): every string field trimmed, the symbol uppercased, an
empty estimate replaced by the explicit null marker. -/
def normalizeRow (r : RawRow) : FilteredRow :=
  { symbol := pyupper (pytrim ((r.symbol).getD "")),
    name := pytrim ((r.name).getD ""),
    reportDate := pytrim ((r.reportDate).getD ""),
    fiscalDateEnding := pytrim ((r.fiscalDateEnding).getD ""),
    estimate :=
      (let e := pytrim ((r.estimate).getD "")
       if e = "" then none else some e),
    currency := pytrim ((r.currency).getD "") }

/-! ## Sanity Gate (`verify_sanity`) -/

/-- `verify_sanity` from build_earnings_cache.py: raise `RuntimeError`
when the raw row count or the filtered row count is below its threshold,
otherwise return without error. -/
def verify_sanity (raw_rows : List RawRow) (filtered_rows : List FilteredRow) :
    Except PyErr Unit :=
  if raw_rows.length < MIN_RAW_ROWS then
    .error (.runtimeError ("Sanity check failed: raw rows " ++
      toString raw_rows.length ++ " < " ++ toString MIN_RAW_ROWS ++ "."))
  else if filtered_rows.length < MIN_FILTERED_ROWS then
    .error (.runtimeError ("Sanity check failed: filtered rows " ++
      toString filtered_rows.length ++ " < " ++ toString MIN_FILTERED_ROWS ++
      ". Refusing to overwrite cache with almost-empty universe."))
  else .ok ()

/-! ## Cache Writer (`archive_previous_cache`, `write_cache_json`) -/

/-- Archive file path for a given UTC timestamp string
(`earnings_history/earnings_cache_<stamp>.json`). -/
def archPathOf (stamp : String) : String :=
  ARCHIVE_DIR ++ "/earnings_cache_" ++ stamp ++ ".json"

/-- The content the archival step writes for a previous cache content:
`json.load` it (falling back to the raw text on any parse failure), then
`json.dump` it if it is a dict or list, else `str()` of it. -/
def archContent (old : String) : String :=
  match loads old with
  | some v => if isContainer v then dumps v else pyStr v
  | none => old

/-- `archive_previous_cache` from build_earnings_cache.py.  If the live
file exists, read it (best-effort parse with raw-text fallback) and write
the re-serialized content under the timestamped archive name; `stamp` is
the `datetime.utcnow().strftime("%Y%m%dT%H%M%SZ")` clock reading.
`os.makedirs(..., exist_ok=True)` is a no-op in the model (directories are
implicit).  The write can raise `OSError`, which propagates. -/
def archive_previous_cache (current_path : String) (stamp : String) (w : World) :
    World × Option PyErr :=
  match getFile current_path w.files with
  | none => (w, none)
  | some old => writeFile (archPathOf stamp) (archContent old) w

/-- `write_cache_json` from build_earnings_cache.py: archive the previous
cache (if any), then overwrite the live file with the new rows serialized
as a JSON array.  An exception from the archival step propagates before
the overwrite is attempted. -/
def write_cache_json (rows : List FilteredRow) (path : String) (stamp : String)
    (w : World) : World × Option PyErr :=
  match archive_previous_cache path stamp w with
  | (w', some e) => (w', some e)
  | (w', none) => writeFile path (dumpRows rows) w'

/-! ## The build run (`main` of build_earnings_cache.py) -/

/-- The run's external inputs: the `ALPHAVANTAGE_API_KEY` environment
variable, the universe CSV (as for `load_universe`), the HTTP exchange
(as for the fetcher) and the UTC clock reading used for the archive
name. -/
structure RunInput where
  apiKey : Option String
  universeFile : Option (List (List String))
  response : Option (Nat × String)
  stamp : String
deriving DecidableEq

/-- The stages of `main` before any file is touched: `require_api_key`
(`sys.exit(1)` when the key is unset or empty, both falsy in Python),
then inside the `try` block: `load_universe`, the fetch, the filter, and
`verify_sanity`.  Any error aborts the run. -/
def pipelineBeforeWrite (inp : RunInput) : Except PyErr (List FilteredRow) :=
  match inp.apiKey with
  | none => .error .configError
  | some key =>
    if key = "" then .error .configError
    else
      match load_universe inp.universeFile with
      | .error e => .error e
      | .ok univ =>
        match fetch_earnings_calendar_from_api inp.response with
        | .error e => .error e
        | .ok raw_rows =>
          let filtered_rows := build_filtered_rows univ raw_rows
          match verify_sanity raw_rows filtered_rows with
          | .error e => .error e
          | .ok _ => .ok filtered_rows

/-- `main` of build_earnings_cache.py: run the pre-write pipeline; on any
exception print and `sys.exit(1)` without touching files; otherwise call
`write_cache_json` (whose own exception is also caught, after whatever
writes already happened) and exit 0 on success.  Returns the final world
and the process exit code. -/
def mainRun (inp : RunInput) (w : World) : World × Nat :=
  match pipelineBeforeWrite inp with
  | .error _ => (w, 1)
  | .ok filtered_rows =>
    match write_cache_json filtered_rows CACHE_JSON inp.stamp w with
    | (w', none) => (w', 0)
    | (w', some _) => (w', 1)

/-! ## History Backfiller (`backfill_history`) -/

/-- Leap-year rule of the Gregorian calendar, as `datetime` uses. -/
def isLeapYear (y : Nat) : Bool :=
  (y % 4 = 0 && y % 100 ≠ 0) || (y % 400 = 0)

/-- Length of a month. -/
def daysInMonth (y m : Nat) : Nat :=
  if m = 2 then (if isLeapYear y then 29 else 28)
  else if m = 4 ∨ m = 6 ∨ m = 9 ∨ m = 11 then 30
  else 31

/-- Days in the months strictly before month `m` of a non-leap year. -/
def cumDaysBefore (m : Nat) : Nat :=
  match m with
  | 1 => 0
  | 2 => 31
  | 3 => 59
  | 4 => 90
  | 5 => 120
  | 6 => 151
  | 7 => 181
  | 8 => 212
  | 9 => 243
  | 10 => 273
  | 11 => 304
  | _ => 334

/-- Proleptic-Gregorian ordinal of a calendar date, as
`datetime.date.toordinal` computes it (day 1 is 0001-01-01).  Comparison
and `timedelta` subtraction on `date` objects agree with arithmetic on
ordinals. -/
def toOrdinal (y m d : Nat) : Nat :=
  365 * (y - 1) + (y - 1) / 4 - (y - 1) / 100 + (y - 1) / 400 +
    cumDaysBefore m + (if 2 < m ∧ isLeapYear y then 1 else 0) + d

/-- All characters are ASCII decimal digits and the string is non-empty. -/
def allDigits (s : String) : Bool :=
  s ≠ "" && s.data.all Char.isDigit

/-- Numeric value of a digit string. -/
def digitsStrVal (s : String) : Nat :=
  digitsVal s.data

/-- Model of `datetime.strptime(date_str, "%Y-%m-%d").date()`: exactly
four year digits, one or two month and day digits, full-string match, and
a real calendar date (month 1..12, day within the month, year at least
1); the result is the date's ordinal.  `None` models the `ValueError`
branch. -/
def parse_report_date (s : String) : Option Int :=
  match pysplitOnChar '-' s with
  | [ys, ms, ds] =>
    if allDigits ys && ys.length = 4 && allDigits ms && ms.length ≤ 2 &&
        allDigits ds && ds.length ≤ 2 then
      let y := digitsStrVal ys
      let m := digitsStrVal ms
      let d := digitsStrVal ds
      if 1 ≤ y ∧ 1 ≤ m ∧ m ≤ 12 ∧ 1 ≤ d ∧ d ≤ daysInMonth y m then
        some (Int.ofNat (toOrdinal y m d))
      else none
    else none
  | _ => none

/-- History file path for a report-date string
(`earnings_history/earnings_<date>.json`). -/
def hist_path (date_str : String) : String :=
  HISTORY_DIR ++ "/earnings_" ++ date_str ++ ".json"

/-- The counters `backfill_history` prints in its summary. -/
structure BackfillStats where
  created : Nat
  skippedExisting : Nat
  skippedOutOfRange : Nat
deriving DecidableEq

/-- The loop of `backfill_history` over the grouped dict (Python dicts
iterate in insertion order, so the groups are a list): unparseable dates
are skipped, dates outside `[cutoff, today]` are counted and skipped,
existing files are counted and skipped, otherwise the group is written.
A write fault raises `OSError`, which propagates out uncaught. -/
def backfillGo (today cutoff : Int) :
    List (String × List FilteredRow) → World → Nat → Nat → Nat →
      World × Except PyErr BackfillStats
  | [], w, c, se, sor => (w, .ok ⟨c, se, sor⟩)
  | (date_str, rows) :: rest, w, c, se, sor =>
    match parse_report_date date_str with
    | none => backfillGo today cutoff rest w c se sor
    | some d =>
      if today < d ∨ d < cutoff then backfillGo today cutoff rest w c se (sor + 1)
      else if (getFile (hist_path date_str) w.files).isSome then
        backfillGo today cutoff rest w c (se + 1) sor
      else
        match writeFile (hist_path date_str) (dumpRows rows) w with
        | (w', none) => backfillGo today cutoff rest w' (c + 1) se sor
        | (w', some e) => (w', .error e)

/-- `backfill_history` from backfill_earnings_history.py.  `today` is the
ordinal of `date.today()`; `cutoff = today - timedelta(days=30)`.
`os.makedirs(HISTORY_DIR, exist_ok=True)` is a no-op in the model. -/
def backfill_history (grouped : List (String × List FilteredRow)) (today : Int)
    (w : World) : World × Except PyErr BackfillStats :=
  backfillGo today (today - (DAYS_TO_BACKFILL : Int)) grouped w 0 0 0

/-- Spec-side predicate for C7 (group is valid, in the window, and has no
existing file in the initial world's files). -/
def groupWritePred (today cutoff : Int) (files0 : List (String × String))
    (g : String × List FilteredRow) : Bool :=
  match parse_report_date g.1 with
  | none => false
  | some d =>
    !(decide (today < d) || decide (d < cutoff)) &&
      (getFile (hist_path g.1) files0).isNone

/-- Spec-side predicate for C7: group has a valid date outside the
window. -/
def groupOutOfRange (today cutoff : Int) (g : String × List FilteredRow) : Bool :=
  match parse_report_date g.1 with
  | none => false
  | some d => decide (today < d) || decide (d < cutoff)

/-- Spec-side predicate for C7: group has a valid in-window date but a
file already exists at its path in the initial world. -/
def groupExisting (today cutoff : Int) (files0 : List (String × String))
    (g : String × List FilteredRow) : Bool :=
  match parse_report_date g.1 with
  | none => false
  | some d =>
    !(decide (today < d) || decide (d < cutoff)) &&
      (getFile (hist_path g.1) files0).isSome

/-- The file entries a backfill run appends (for C7's statement). -/
def backfillEntries (today cutoff : Int) (files0 : List (String × String))
    (grouped : List (String × List FilteredRow)) : List (String × String) :=
  (grouped.filter (groupWritePred today cutoff files0)).map
    (fun g => (hist_path g.1, dumpRows g.2))

/-! ## Helper lemmas: file system -/

theorem getFile_setFile (p q c : String) (fs : List (String × String)) :
    getFile p (setFile q c fs) = if q = p then some c else getFile p fs := by
  induction fs with
  | nil => simp [getFile, setFile]
  | cons kv rest ih =>
    obtain ⟨k, v⟩ := kv
    by_cases hk : k = q
    · subst hk
      by_cases hp : k = p
      · subst hp; simp [getFile, setFile]
      · simp [getFile, setFile, hp]
    · by_cases hp : k = p
      · subst hp
        have h1 : getFile k (setFile q c ((k, v) :: rest)) = some v := by
          simp [setFile, hk, getFile]
        rw [h1, if_neg (Ne.symm hk)]
        simp [getFile]
      · simp [getFile, setFile, hk, hp, ih]

theorem setFile_of_getFile_none (p c : String) (fs : List (String × String))
    (h : getFile p fs = none) : setFile p c fs = fs ++ [(p, c)] := by
  induction fs with
  | nil => simp [setFile]
  | cons kv rest ih =>
    obtain ⟨k, v⟩ := kv
    by_cases hk : k = p
    · subst hk; simp [getFile] at h
    · simp [getFile, hk] at h
      simp [setFile, hk, ih h]

theorem length_setFile_of_getFile_some (p c : String) (fs : List (String × String))
    {old : String} (h : getFile p fs = some old) :
    (setFile p c fs).length = fs.length := by
  induction fs with
  | nil => simp [getFile] at h
  | cons kv rest ih =>
    obtain ⟨k, v⟩ := kv
    by_cases hk : k = p
    · subst hk; simp [setFile]
    · simp [getFile, hk] at h
      simp [setFile, hk, ih h]

/-! ## Helper lemmas: lexicographic order -/

theorem lexLe_total : ∀ as bs : List Char, lexLe as bs = true ∨ lexLe bs as = true := by
  intro as
  induction as with
  | nil => intro bs; left; rfl
  | cons a as ih =>
    intro bs
    cases bs with
    | nil => right; rfl
    | cons b bs =>
      rcases lt_trichotomy a b with h | h | h
      · left; simp [lexLe, h]
      · subst h
        rcases ih bs with h2 | h2
        · left; simp [lexLe, h2]
        · right; simp [lexLe, h2]
      · right; simp [lexLe, h]

theorem lexLe_trans : ∀ as bs cs : List Char,
    lexLe as bs = true → lexLe bs cs = true → lexLe as cs = true := by
  intro as
  induction as with
  | nil => intro bs cs _ _; rfl
  | cons a as ih =>
    intro bs cs h1 h2
    cases bs with
    | nil => simp [lexLe] at h1
    | cons b bs =>
      cases cs with
      | nil => simp [lexLe] at h2
      | cons c cs =>
        rcases lt_trichotomy a b with hab | hab | hab
        · rcases lt_trichotomy b c with hbc | hbc | hbc
          · simp [lexLe, lt_trans hab hbc]
          · subst hbc; simp [lexLe, hab]
          · simp [lexLe, hbc, asymm hbc] at h2
        · subst hab
          rcases lt_trichotomy a c with hac | hac | hac
          · simp [lexLe, hac]
          · subst hac
            simp [lexLe, lt_irrefl] at h1 h2 ⊢
            exact ih _ _ h1 h2
          · simp [lexLe, hac, asymm hac] at h2
        · simp [lexLe, hab, asymm hab] at h1

theorem lexLe_iff_not_lex (as bs : List Char) :
    lexLe as bs = true ↔ ¬ List.Lex (· < ·) bs as := by
  induction as generalizing bs with
  | nil =>
    constructor
    · intro _ h
      exact List.Lex.not_nil_right _ _ h
    · intro _
      rfl
  | cons a as ih =>
    cases bs with
    | nil =>
      constructor
      · intro h
        simp [lexLe] at h
      · intro h
        exact absurd List.Lex.nil h
    | cons b bs =>
      rcases lt_trichotomy a b with h | h | h
      · simp [lexLe, h]
        intro hlex
        cases hlex with
        | cons h2 => exact lt_irrefl a h
        | rel h2 => exact asymm h h2
      · subst h
        have hstep : List.Lex (fun x y => x < y) (a :: bs) (a :: as) ↔
            List.Lex (fun x y => x < y) bs as := by
          constructor
          · intro hlex
            cases hlex with
            | cons h2 => exact h2
            | rel h2 => exact absurd h2 (lt_irrefl a)
          · exact List.Lex.cons
        have hL : lexLe (a :: as) (a :: bs) = lexLe as bs := by
          simp [lexLe, lt_irrefl]
        rw [hL, ih]
        exact not_congr hstep.symm
      · simp [lexLe, h, asymm h]
        exact List.Lex.rel h

theorem pyle_iff_le (a b : String) : pyle a b = true ↔ a ≤ b := by
  rw [String.le_iff_toList_le]
  have : (a.toList ≤ b.toList) ↔ ¬ b.toList < a.toList := not_lt.symm
  rw [this]
  exact lexLe_iff_not_lex a.data b.data

/-! ## C1: Sanity Gate threshold characterization -/

/-- C1: `verify_sanity` raises an InsufficientData-class failure (a
`RuntimeError`) if and only if the raw row count is below `MIN_RAW_ROWS`
(100) or the filtered row count is below `MIN_FILTERED_ROWS` (10), and
returns without error for all other counts. -/
theorem sanity_gate_rejects_iff_below_thresholds
    (raw_rows : List RawRow) (filtered_rows : List FilteredRow) :
    (verify_sanity raw_rows filtered_rows = .ok () ↔
      ¬(raw_rows.length < MIN_RAW_ROWS ∨ filtered_rows.length < MIN_FILTERED_ROWS)) ∧
    ((∃ msg, verify_sanity raw_rows filtered_rows = .error (.runtimeError msg)) ↔
      (raw_rows.length < MIN_RAW_ROWS ∨ filtered_rows.length < MIN_FILTERED_ROWS)) := by
  unfold verify_sanity
  by_cases h1 : raw_rows.length < MIN_RAW_ROWS <;>
    by_cases h2 : filtered_rows.length < MIN_FILTERED_ROWS <;>
      simp [h1, h2]

/-! ## C2: failures before the write leave the cache untouched -/

/-- C2: whenever the Sanity Gate rejects or any earlier stage fails (the
pre-write pipeline returns an error), `main` performs no write at all —
the final world, and in particular the live cache file's content, is
identical to the initial one — and the process exits with code 1. -/
theorem main_failure_leaves_world_untouched (inp : RunInput) (w : World)
    (e : PyErr) (h : pipelineBeforeWrite inp = .error e) :
    mainRun inp w = (w, 1) := by
  unfold mainRun
  rw [h]

/-- Witness for C2 at a concrete input: a run with the API key unset
leaves a concrete world unchanged and exits 1. -/
theorem main_failure_leaves_world_untouched_witness :
    mainRun ⟨none, none, none, "20250101T000000Z"⟩
        ⟨[(CACHE_JSON, "[1,2]")], [], []⟩ =
      (⟨[(CACHE_JSON, "[1,2]")], [], []⟩, 1) :=
  main_failure_leaves_world_untouched _ _ PyErr.configError rfl

/-! ## C5: Universe Filter characterization -/

/-- C5: for every Universe (whose members are genuine tickers, hence not
the empty string) and every raw row list, the filter output is exactly the
input rows whose uppercased trimmed symbol is a Universe member and whose
trimmed reportDate is non-empty, in input order, each normalized by
trimming every string field and replacing an empty estimate with the null
marker; as a Lean function the transform is pure and deterministic. -/
theorem universe_filter_matches_spec (univ : List String)
    (raw_rows : List RawRow) (h : "" ∉ univ) :
    build_filtered_rows univ raw_rows =
      (raw_rows.filter (keepsRow univ)).map normalizeRow := by
  induction raw_rows with
  | nil => rfl
  | cons r rest ih =>
    rw [List.filter_cons]
    by_cases hm : pyupper (pytrim ((r.symbol).getD "")) ∈ univ
    · have hs : ¬ pyupper (pytrim ((r.symbol).getD "")) = "" := by
        intro he
        rw [he] at hm
        exact h hm
      by_cases hr : pytrim ((r.reportDate).getD "") = ""
      · have hk : keepsRow univ r = false := by
          simp [keepsRow, hr]
        rw [hk]
        simp only [Bool.false_eq_true, if_false]
        show build_filtered_rows univ (r :: rest) = _
        simp only [build_filtered_rows]
        rw [if_neg hs, if_neg (not_not_intro hm), if_pos hr]
        exact ih
      · have hk : keepsRow univ r = true := by
          simp [keepsRow, hm, hr]
        rw [hk]
        simp only [if_true]
        show build_filtered_rows univ (r :: rest) = _
        simp only [build_filtered_rows]
        rw [if_neg hs, if_neg (not_not_intro hm), if_neg hr]
        rw [List.map_cons, ih]
        rfl
    · have hk : keepsRow univ r = false := by
        simp [keepsRow, hm]
      rw [hk]
      simp only [Bool.false_eq_true, if_false]
      show build_filtered_rows univ (r :: rest) = _
      simp only [build_filtered_rows]
      by_cases hs : pyupper (pytrim ((r.symbol).getD "")) = ""
      · rw [if_pos hs]
        exact ih
      · rw [if_neg hs, if_pos hm]
        exact ih

/-- Witness for C5 at the spec's scenario: universe AAPL and MSFT, one
AAPL row with surrounding whitespace and one GOOG row; the filter keeps
the normalized AAPL row and drops GOOG. -/
theorem universe_filter_matches_spec_witness :
    ("" ∉ ["AAPL", "MSFT"]) ∧
    build_filtered_rows ["AAPL", "MSFT"]
        [⟨some " aapl", some " Apple ", some " 2025-01-10 ", some "2024-12-31",
            some "1.5", some "USD"⟩,
         ⟨some "GOOG", none, some "2025-01-10", none, none, none⟩] =
      (([⟨some " aapl", some " Apple ", some " 2025-01-10 ", some "2024-12-31",
            some "1.5", some "USD"⟩,
          ⟨some "GOOG", none, some "2025-01-10", none, none, none⟩] :
            List RawRow).filter (keepsRow ["AAPL", "MSFT"])).map normalizeRow :=
  ⟨by decide, universe_filter_matches_spec _ _ (by decide)⟩

/-! ## Helper lemmas: ticker collection loop -/

theorem collect_tickers_indexError (idx : Nat) (body : List (List String))
    (h : ∃ row ∈ body, row ≠ [] ∧ row.length ≤ idx) :
    collect_tickers idx body = .error .indexError := by
  induction body with
  | nil =>
    obtain ⟨row, hmem, _⟩ := h
    cases hmem
  | cons r rest ih =>
    obtain ⟨row, hmem, hne, hlen⟩ := h
    by_cases hr : r = []
    · have hrest : row ∈ rest := by
        rcases List.mem_cons.mp hmem with h1 | h1
        · subst h1; exact absurd hr hne
        · exact h1
      simp only [collect_tickers, if_pos hr]
      exact ih ⟨row, hrest, hne, hlen⟩
    · simp only [collect_tickers, if_neg hr]
      cases hcell : r[idx]? with
      | none => rfl
      | some cell =>
        have hrest : row ∈ rest := by
          rcases List.mem_cons.mp hmem with h1 | h1
          · subst h1
            rw [List.getElem?_eq_none hlen] at hcell
            cases hcell
          · exact h1
        have hrec := ih ⟨row, hrest, hne, hlen⟩
        dsimp only
        by_cases hbad : pyupper (pytrim cell) = "" ∨ pyupper (pytrim cell) = "TICKER" ∨
            pyupper (pytrim cell) = "..."
        · rw [if_pos hbad]
          exact hrec
        · rw [if_neg hbad, hrec]
          rfl

theorem collect_tickers_mem (idx : Nat) (body : List (List String))
    (ts : List String) (hok : collect_tickers idx body = .ok ts) :
    ∀ t ∈ ts, (∃ row ∈ body, ∃ cell ∈ row, t = pyupper (pytrim cell)) ∧
      ¬(t = "" ∨ t = "TICKER" ∨ t = "...") := by
  induction body generalizing ts with
  | nil =>
    simp only [collect_tickers] at hok
    cases hok
    intro t ht
    cases ht
  | cons r rest ih =>
    by_cases hr : r = []
    · simp only [collect_tickers, if_pos hr] at hok
      intro t ht
      obtain ⟨⟨row, hrow, hcell⟩, hgood⟩ := ih ts hok t ht
      exact ⟨⟨row, List.mem_cons_of_mem _ hrow, hcell⟩, hgood⟩
    · simp only [collect_tickers, if_neg hr] at hok
      cases hcell : r[idx]? with
      | none =>
        rw [hcell] at hok
        cases hok
      | some cell =>
        rw [hcell] at hok
        dsimp only at hok
        have hcellmem : cell ∈ r := by
          obtain ⟨hlt, hget⟩ := List.getElem?_eq_some.mp hcell
          rw [← hget]
          exact List.getElem_mem hlt
        by_cases hbad : pyupper (pytrim cell) = "" ∨ pyupper (pytrim cell) = "TICKER" ∨
            pyupper (pytrim cell) = "..."
        · rw [if_pos hbad] at hok
          intro t ht
          obtain ⟨⟨row, hrow, hc⟩, hgood⟩ := ih ts hok t ht
          exact ⟨⟨row, List.mem_cons_of_mem _ hrow, hc⟩, hgood⟩
        · rw [if_neg hbad] at hok
          cases hrec : collect_tickers idx rest with
          | error e =>
            rw [hrec] at hok
            cases hok
          | ok ts' =>
            rw [hrec] at hok
            cases hok
            intro t ht
            rcases List.mem_cons.mp ht with h1 | h1
            · subst h1
              exact ⟨⟨r, List.mem_cons_self _ _, cell, hcellmem, rfl⟩, hbad⟩
            · obtain ⟨⟨row, hrow, hc⟩, hgood⟩ := ih ts' hrec t h1
              exact ⟨⟨row, List.mem_cons_of_mem _ hrow, hc⟩, hgood⟩

/-! ## C10: short rows under a late ticker column crash the loader -/

/-- C10: when the detected header places the `ticker` column at a
positive index `k` and some later non-empty row has at most `k` cells,
`load_universe` raises an `IndexError` (an uncaught crash), not one of the
loader's own `FileNotFoundError`/`RuntimeError` failures. -/
theorem universe_loader_short_row_crashes (r0 : List String)
    (rest : List (List String)) (k : Nat)
    (hmem : "ticker" ∈ r0.map (fun c => pylower (pytrim c)))
    (hidx : (r0.map (fun c => pylower (pytrim c))).indexOf "ticker" = k)
    (_hk : 0 < k)
    (hrow : ∃ row ∈ rest, row ≠ [] ∧ row.length ≤ k) :
    load_universe (some (r0 :: rest)) = .error .indexError := by
  have hcol := collect_tickers_indexError k rest hrow
  simp only [load_universe, if_pos hmem, hidx]
  rw [hcol]

/-- Witness for C10: header `name,ticker` (so k = 1) followed by a
one-cell row crashes with `IndexError`. -/
theorem universe_loader_short_row_crashes_witness :
    load_universe (some [["name", "ticker"], ["x"]]) = .error .indexError :=
  universe_loader_short_row_crashes ["name", "ticker"] [["x"]] 1
    (by decide) (by decide) (by decide) ⟨["x"], by decide⟩

/-! ## C8: Universe Loader output characterization -/

/-- C8: whenever the loader succeeds its output is lexicographically
sorted, duplicate-free and non-empty, every element is the
uppercased+trimmed form of some cell of the file (hence uppercase and
trimmed) and is none of `""`, `"TICKER"`, `"..."`; a missing file and a
zero-row file fail, and zero surviving tickers cannot succeed (success
forces a non-empty result). -/
theorem universe_loader_output (file : Option (List (List String))) :
    (∀ out, load_universe file = .ok out →
        List.Sorted (fun a b : String => a ≤ b) out ∧ out.Nodup ∧ out ≠ [] ∧
        ∀ t ∈ out, ¬(t = "" ∨ t = "TICKER" ∨ t = "...") ∧
          ∃ rows, file = some rows ∧ ∃ row ∈ rows, ∃ cell ∈ row,
            t = pyupper (pytrim cell)) ∧
    load_universe none =
      .error (.fileNotFound ("Universe file not found: " ++ UNIVERSE_CSV)) ∧
    load_universe (some []) = .error (.runtimeError "Universe CSV is empty") := by
  refine ⟨?_, rfl, rfl⟩
  intro out hok
  match file with
  | none => cases hok
  | some [] => cases hok
  | some (r0 :: rest) =>
    simp only [load_universe] at hok
    cases hcol : collect_tickers
        (if "ticker" ∈ r0.map (fun c => pylower (pytrim c)) then
          (r0.map (fun c => pylower (pytrim c))).indexOf "ticker" else 0)
        (if "ticker" ∈ r0.map (fun c => pylower (pytrim c)) then rest
          else r0 :: rest) with
    | error e =>
      rw [hcol] at hok
      cases hok
    | ok ts =>
      rw [hcol] at hok
      dsimp only at hok
      by_cases hts : ts = []
      · rw [if_pos hts] at hok
        cases hok
      · rw [if_neg hts] at hok
        cases hok
        haveI htot : IsTotal String (fun a b : String => pyle a b = true) :=
          ⟨fun a b => lexLe_total a.data b.data⟩
        haveI htrans : IsTrans String (fun a b : String => pyle a b = true) :=
          ⟨fun a b c => lexLe_trans a.data b.data c.data⟩
        have hperm := List.perm_insertionSort
          (fun a b : String => pyle a b = true) ts.dedup
        refine ⟨?_, ?_, ?_, ?_⟩
        · have hs := List.sorted_insertionSort
            (fun a b : String => pyle a b = true) ts.dedup
          exact hs.imp (fun {a b} hr => (pyle_iff_le a b).mp hr)
        · exact hperm.symm.nodup (List.nodup_dedup ts)
        · intro hnil
          rw [hnil] at hperm
          exact hts ((List.dedup_eq_nil ts).mp hperm.symm.eq_nil)
        · intro t ht
          have htd : t ∈ ts := List.mem_dedup.mp (hperm.mem_iff.mp ht)
          have := collect_tickers_mem _ _ ts hcol t htd
          obtain ⟨⟨row, hrow, cell, hcell, heq⟩, hgood⟩ := this
          refine ⟨hgood, r0 :: rest, rfl, row, ?_, cell, hcell, heq⟩
          by_cases hdr : "ticker" ∈ r0.map (fun c => pylower (pytrim c))
          · rw [if_pos hdr] at hrow
            exact List.mem_cons_of_mem _ hrow
          · rw [if_neg hdr] at hrow
            exact hrow

/-- Witness for C8 at a concrete file: one-column rows `b`, `a`, `a`
load as the sorted deduplicated universe `A`, `B`, which the theorem then
certifies sorted and duplicate-free. -/
theorem universe_loader_output_witness :
    List.Sorted (fun a b : String => a ≤ b) ["A", "B"] ∧
      (["A", "B"] : List String).Nodup ∧ (["A", "B"] : List String) ≠ [] := by
  have h := (universe_loader_output (some [["b"], ["a"], ["a"]])).1 ["A", "B"]
    (by decide)
  exact ⟨h.1, h.2.1, h.2.2.1⟩

/-! ## C9: provider-error classification of JSON bodies -/

/-- C9 counterexample: on the unparseable JSON body, the build fetcher
fails with the fixed message "Provider returned JSON that could not be
parsed." rather than a ProviderError carrying the raw body text, and the
backfill fetcher raises an uncaught `json.JSONDecodeError`; the claimed
raw-body-text fallback does not exist in either script. -/
theorem fetch_unparseable_json_not_raw_text_cex :
    fetch_earnings_calendar_from_api (some (200, "\x7bnot json")) =
      .error (.runtimeError "Provider returned JSON that could not be parsed.") ∧
    fetch_earnings_calendar_from_api (some (200, "\x7bnot json")) ≠
      .error (.providerError "\x7bnot json") ∧
    fetch_calendar_once (some (200, "\x7bnot json")) = .error .jsonDecodeError :=
  ⟨rfl, by decide, rfl⟩

/-- C9 (amended): for every 200-status body whose stripped text starts
with a brace, the build fetcher fails with a ProviderError whose message
is the first truthy field among Note, Error Message, Information
(rendered by `str()`), falling back to the raw stripped text when no such
field is truthy — but when the body cannot be parsed it fails with the
fixed message "Provider returned JSON that could not be parsed." (and the
backfill variant lets the JSON decode error propagate). -/
theorem fetch_json_body_classification (body : String)
    (h : pystartsWith (pytrim body) "\x7b" = true) :
    fetch_earnings_calendar_from_api (some (200, body)) =
      (match loads (pytrim body) with
       | none =>
         .error (.runtimeError "Provider returned JSON that could not be parsed.")
       | some obj => .error (.providerError (providerMsgOf obj (pytrim body)))) ∧
    fetch_calendar_once (some (200, body)) =
      (match loads (pytrim body) with
       | none => .error .jsonDecodeError
       | some obj => .error (.providerError (providerMsgOf obj (pytrim body)))) := by
  have hne : ¬ pytrim body = "" := by
    intro he
    rw [he] at h
    cases h
  constructor
  · simp only [fetch_earnings_calendar_from_api]
    rw [if_neg (by decide : ¬ 400 ≤ 200), if_neg hne, if_pos h]
  · simp only [fetch_calendar_once]
    rw [if_neg (by decide : ¬ 400 ≤ 200), if_neg hne, if_pos h]

/-- Witness for C9's amended theorem at the spec's scenario: the body
consisting of a Note object yields a ProviderError whose message is
exactly "rate limit exceeded". -/
theorem fetch_json_body_classification_witness :
    fetch_earnings_calendar_from_api
        (some (200, "\x7b\x22Note\x22: \x22rate limit exceeded\x22\x7d")) =
      .error (.providerError "rate limit exceeded") :=
  ((fetch_json_body_classification "\x7b\x22Note\x22: \x22rate limit exceeded\x22\x7d"
      (by decide)).1).trans rfl

/-- Lookup distributes over append: the left list wins when it has the
path. -/
theorem getFile_append (p : String) (fs gs : List (String × String)) :
    getFile p (fs ++ gs) =
      (match getFile p fs with
       | some c => some c
       | none => getFile p gs) := by
  induction fs with
  | nil => simp [getFile]
  | cons kv rest ih =>
    obtain ⟨k, v⟩ := kv
    by_cases hk : k = p
    · simp [getFile, hk]
    · simp [getFile, hk, ih]

/-! ## C3: archival strictly precedes the overwrite -/

/-- C3: when a prior live snapshot exists, a successful run of the Cache
Writer performs exactly the archive write followed by the live-file
write, in that order (the write trace extends by the archive event first);
and when the archival write fails, `write_cache_json` raises without
attempting the overwrite, leaving the world (and hence the prior live
content) untouched. -/
theorem archive_precedes_overwrite (rows : List FilteredRow)
    (path stamp : String) (w : World) (old : String)
    (h : getFile path w.files = some old) :
    ((write_cache_json rows path stamp w).2 = none →
      (write_cache_json rows path stamp w).1.trace =
        w.trace ++ [(archPathOf stamp, archContent old), (path, dumpRows rows)]) ∧
    (archPathOf stamp ∈ w.faults →
      write_cache_json rows path stamp w = (w, some .osError)) := by
  unfold write_cache_json archive_previous_cache
  rw [h]
  unfold writeFile
  dsimp only
  by_cases hf : archPathOf stamp ∈ w.faults
  · rw [if_pos hf]
    constructor
    · intro h2
      simp at h2
    · intro _
      rfl
  · rw [if_neg hf]
    dsimp only
    constructor
    · by_cases hp : path ∈ w.faults
      · rw [if_pos hp]
        intro h2
        simp at h2
      · rw [if_neg hp]
        intro _
        simp [List.append_assoc]
    · intro hf2
      exact absurd hf2 hf

/-- Witness for C3: on a concrete world with a live cache, the successful
run's trace shows the archive write before the overwrite; on the same
world with the archive path faulted, the writer fails leaving the world
unchanged. -/
theorem archive_precedes_overwrite_witness :
    (write_cache_json [] CACHE_JSON "20250102T000000Z"
        ⟨[(CACHE_JSON, "[]")], [], []⟩).1.trace =
      [] ++ [(archPathOf "20250102T000000Z", archContent "[]"),
        (CACHE_JSON, dumpRows [])] ∧
    write_cache_json [] CACHE_JSON "20250102T000000Z"
        ⟨[(CACHE_JSON, "[]")], [archPathOf "20250102T000000Z"], []⟩ =
      (⟨[(CACHE_JSON, "[]")], [archPathOf "20250102T000000Z"], []⟩,
        some .osError) :=
  ⟨(archive_precedes_overwrite [] CACHE_JSON "20250102T000000Z"
      ⟨[(CACHE_JSON, "[]")], [], []⟩ "[]" rfl).1 rfl,
   (archive_precedes_overwrite [] CACHE_JSON "20250102T000000Z"
      ⟨[(CACHE_JSON, "[]")], [archPathOf "20250102T000000Z"], []⟩ "[]" rfl).2
      (by decide)⟩

/-! ## C4: archive content is the JSON round-trip, not the raw bytes -/

/-- C4 counterexample: with pre-run live content `[1,2]` the Cache Writer
succeeds but the single new archive file holds `[1, 2]` — the `json.load`
/ `json.dump` round-trip — which is not byte-identical to the pre-run
live cache content, contradicting the claim's content-equality clause. -/
theorem cache_writer_archive_not_byte_identical_cex :
    getFile CACHE_JSON ([(CACHE_JSON, "[1,2]")] : List (String × String)) =
      some "[1,2]" ∧
    (write_cache_json [] CACHE_JSON "20250101T000000Z"
        ⟨[(CACHE_JSON, "[1,2]")], [], []⟩).2 = none ∧
    getFile (archPathOf "20250101T000000Z")
        (write_cache_json [] CACHE_JSON "20250101T000000Z"
          ⟨[(CACHE_JSON, "[1,2]")], [], []⟩).1.files = some "[1, 2]" ∧
    ("[1, 2]" : String) ≠ "[1,2]" := by
  decide

/-- C4 (amended): given an existing live cache, a fault-free disk and a
fresh timestamped archive name, the Cache Writer succeeds, adds exactly
one new file — the archive file named from the run's UTC timestamp, whose
content is the pre-run live content passed through the JSON
parse/re-serialize round-trip (byte-identical exactly when that
round-trip is the identity on it, e.g. for unparseable text) — and the
live file afterwards holds the new dataset serialized as a JSON array. -/
theorem cache_writer_archives_roundtrip (rows : List FilteredRow)
    (path stamp : String) (w : World) (old : String)
    (hold : getFile path w.files = some old)
    (hfaults : w.faults = [])
    (hfresh : getFile (archPathOf stamp) w.files = none) :
    (write_cache_json rows path stamp w).2 = none ∧
    (write_cache_json rows path stamp w).1.files =
      setFile path (dumpRows rows)
        (w.files ++ [(archPathOf stamp, archContent old)]) ∧
    getFile (archPathOf stamp) (write_cache_json rows path stamp w).1.files =
      some (archContent old) ∧
    getFile path (write_cache_json rows path stamp w).1.files =
      some (dumpRows rows) ∧
    (write_cache_json rows path stamp w).1.files.length = w.files.length + 1 := by
  have hne : path ≠ archPathOf stamp := by
    intro he
    rw [he, hfresh] at hold
    cases hold
  have holdapp : getFile path (w.files ++ [(archPathOf stamp, archContent old)]) =
      some old := by
    rw [getFile_append, hold]
  unfold write_cache_json archive_previous_cache
  rw [hold]
  unfold writeFile
  dsimp only
  rw [hfaults]
  rw [if_neg (List.not_mem_nil _)]
  dsimp only
  rw [if_neg (List.not_mem_nil _)]
  dsimp only
  rw [setFile_of_getFile_none _ _ _ hfresh]
  refine ⟨rfl, rfl, ?_, ?_, ?_⟩
  · rw [getFile_setFile, if_neg hne, getFile_append, hfresh]
    simp [getFile]
  · rw [getFile_setFile, if_pos rfl]
  · rw [length_setFile_of_getFile_some _ _ _ holdapp, List.length_append]
    rfl

/-- Witness for C4's amended theorem: the concrete `[1,2]` world — the
writer succeeds and archives the round-tripped content `[1, 2]`. -/
theorem cache_writer_archives_roundtrip_witness :
    (write_cache_json [] CACHE_JSON "20250101T000000Z"
        ⟨[(CACHE_JSON, "[1,2]")], [], []⟩).2 = none ∧
    getFile (archPathOf "20250101T000000Z")
        (write_cache_json [] CACHE_JSON "20250101T000000Z"
          ⟨[(CACHE_JSON, "[1,2]")], [], []⟩).1.files =
      some (archContent "[1,2]") ∧
    (write_cache_json [] CACHE_JSON "20250101T000000Z"
        ⟨[(CACHE_JSON, "[1,2]")], [], []⟩).1.files.length =
      ([(CACHE_JSON, "[1,2]")] : List (String × String)).length + 1 := by
  have h := cache_writer_archives_roundtrip [] CACHE_JSON "20250101T000000Z"
    ⟨[(CACHE_JSON, "[1,2]")], [], []⟩ "[1,2]" rfl rfl rfl
  exact ⟨h.1, h.2.2.1, h.2.2.2.2⟩

/-! ## Helper lemmas: history backfill -/

theorem hist_path_injective {a b : String} (h : hist_path a = hist_path b) :
    a = b := by
  unfold hist_path at h
  have hd := congrArg String.data h
  rw [String.data_append, String.data_append, String.data_append,
    String.data_append] at hd
  have h1 := List.append_cancel_right hd
  have h2 := List.append_cancel_left h1
  exact String.toList_inj.mp h2

theorem backfillGo_mono (today cutoff : Int)
    (gs : List (String × List FilteredRow)) (p cnt : String) :
    ∀ (w : World) (c se sor : Nat), getFile p w.files = some cnt →
      getFile p (backfillGo today cutoff gs w c se sor).1.files = some cnt := by
  induction gs with
  | nil => intro w c se sor hp; exact hp
  | cons g rest ih =>
    intro w c se sor hp
    obtain ⟨ds, rows⟩ := g
    simp only [backfillGo]
    cases hpd : parse_report_date ds with
    | none => exact ih w c se sor hp
    | some d =>
      dsimp only
      by_cases hw : today < d ∨ d < cutoff
      · rw [if_pos hw]
        exact ih w c se (sor + 1) hp
      · rw [if_neg hw]
        by_cases hex : (getFile (hist_path ds) w.files).isSome = true
        · rw [if_pos hex]
          exact ih w c (se + 1) sor hp
        · rw [if_neg hex]
          unfold writeFile
          by_cases hf : hist_path ds ∈ w.faults
          · rw [if_pos hf]
            exact hp
          · rw [if_neg hf]
            dsimp only
            apply ih
            dsimp only
            rw [getFile_setFile]
            have hne : hist_path ds ≠ p := by
              intro he
              rw [he, hp] at hex
              exact hex rfl
            rw [if_neg hne]
            exact hp

theorem backfillGo_writes_window (today cutoff : Int)
    (gs : List (String × List FilteredRow)) :
    ∀ (w : World) (c se sor : Nat) (w' : World) (s : BackfillStats),
      backfillGo today cutoff gs w c se sor = (w', .ok s) →
      ∀ g ∈ gs, ∀ d, parse_report_date g.1 = some d →
        ¬(today < d ∨ d < cutoff) →
        (getFile (hist_path g.1) w'.files).isSome = true := by
  induction gs with
  | nil =>
    intro w c se sor w' s _ g hg
    cases hg
  | cons g0 rest ih =>
    intro w c se sor w' s hrun g hg d hpd hwin
    obtain ⟨ds, rows⟩ := g0
    simp only [backfillGo] at hrun
    rcases List.mem_cons.mp hg with hg0 | hgrest
    · subst hg0
      dsimp only at hpd ⊢
      rw [hpd] at hrun
      dsimp only at hrun
      rw [if_neg hwin] at hrun
      by_cases hex : (getFile (hist_path ds) w.files).isSome = true
      · rw [if_pos hex] at hrun
        obtain ⟨cnt, hcnt⟩ := Option.isSome_iff_exists.mp hex
        have := backfillGo_mono today cutoff rest (hist_path ds) cnt w c (se + 1) sor hcnt
        rw [hrun] at this
        rw [this]
        rfl
      · rw [if_neg hex] at hrun
        unfold writeFile at hrun
        by_cases hf : hist_path ds ∈ w.faults
        · rw [if_pos hf] at hrun
          dsimp only at hrun
          cases hrun
        · rw [if_neg hf] at hrun
          dsimp only at hrun
          have hset : getFile (hist_path ds)
              (setFile (hist_path ds) (dumpRows rows) w.files) =
                some (dumpRows rows) := by
            rw [getFile_setFile, if_pos rfl]
          have := backfillGo_mono today cutoff rest (hist_path ds)
            (dumpRows rows)
            ⟨setFile (hist_path ds) (dumpRows rows) w.files, w.faults,
              w.trace ++ [(hist_path ds, dumpRows rows)]⟩ (c + 1) se sor hset
          rw [hrun] at this
          rw [this]
          rfl
    · cases hpd0 : parse_report_date ds with
      | none =>
        rw [hpd0] at hrun
        exact ih w c se sor w' s hrun g hgrest d hpd hwin
      | some d0 =>
        rw [hpd0] at hrun
        dsimp only at hrun
        by_cases hw0 : today < d0 ∨ d0 < cutoff
        · rw [if_pos hw0] at hrun
          exact ih w c se (sor + 1) w' s hrun g hgrest d hpd hwin
        · rw [if_neg hw0] at hrun
          by_cases hex : (getFile (hist_path ds) w.files).isSome = true
          · rw [if_pos hex] at hrun
            exact ih w c (se + 1) sor w' s hrun g hgrest d hpd hwin
          · rw [if_neg hex] at hrun
            unfold writeFile at hrun
            by_cases hf : hist_path ds ∈ w.faults
            · rw [if_pos hf] at hrun
              dsimp only at hrun
              cases hrun
            · rw [if_neg hf] at hrun
              dsimp only at hrun
              exact ih _ (c + 1) se sor w' s hrun g hgrest d hpd hwin

theorem backfillGo_skips (today cutoff : Int)
    (gs : List (String × List FilteredRow)) :
    ∀ (w : World) (c se sor : Nat),
      (∀ g ∈ gs, ∀ d, parse_report_date g.1 = some d →
        ¬(today < d ∨ d < cutoff) →
        (getFile (hist_path g.1) w.files).isSome = true) →
      ∃ se' sor', backfillGo today cutoff gs w c se sor = (w, .ok ⟨c, se', sor'⟩) := by
  induction gs with
  | nil =>
    intro w c se sor _
    exact ⟨se, sor, rfl⟩
  | cons g0 rest ih =>
    intro w c se sor hex
    obtain ⟨ds, rows⟩ := g0
    simp only [backfillGo]
    cases hpd : parse_report_date ds with
    | none =>
      exact ih w c se sor (fun g hg => hex g (List.mem_cons_of_mem _ hg))
    | some d =>
      dsimp only
      by_cases hw : today < d ∨ d < cutoff
      · rw [if_pos hw]
        exact ih w c se (sor + 1) (fun g hg => hex g (List.mem_cons_of_mem _ hg))
      · rw [if_neg hw]
        have hhead := hex (ds, rows) (List.mem_cons_self _ _) d hpd hw
        rw [if_pos hhead]
        exact ih w c (se + 1) sor (fun g hg => hex g (List.mem_cons_of_mem _ hg))

/-! ## C6: the backfill is idempotent -/

/-- C6: running the History Backfiller a second time with the same
grouped input and the same `today`, starting from the state the first
successful run produced, changes nothing: the history directory contents
(the whole world, write trace included) are identical and the second run
creates zero files — a dated history file, once present, is never
overwritten by the backfill path. -/
theorem backfill_idempotent (grouped : List (String × List FilteredRow))
    (today : Int) (w w₁ : World) (s₁ : BackfillStats)
    (hrun : backfill_history grouped today w = (w₁, .ok s₁)) :
    ∃ s₂, backfill_history grouped today w₁ = (w₁, .ok s₂) ∧ s₂.created = 0 := by
  unfold backfill_history at hrun ⊢
  have hex := backfillGo_writes_window today (today - (DAYS_TO_BACKFILL : Int))
    grouped w 0 0 0 w₁ s₁ hrun
  obtain ⟨se', sor', h⟩ := backfillGo_skips today (today - (DAYS_TO_BACKFILL : Int))
    grouped w₁ 0 0 0 hex
  exact ⟨⟨0, se', sor'⟩, h, rfl⟩

/-- Witness for C6: one in-window group (2025-06-01 against today =
2025-06-15) written by a first run from the empty world; the second run
from the resulting world leaves it unchanged and creates nothing. -/
theorem backfill_idempotent_witness :
    ∃ s₂, backfill_history [("2025-06-01", [])] 739417
        ⟨[(hist_path "2025-06-01", dumpRows [])], [],
          [(hist_path "2025-06-01", dumpRows [])]⟩ =
      (⟨[(hist_path "2025-06-01", dumpRows [])], [],
          [(hist_path "2025-06-01", dumpRows [])]⟩, .ok s₂) ∧ s₂.created = 0 :=
  backfill_idempotent [("2025-06-01", [])] 739417 ⟨[], [], []⟩ _ ⟨1, 0, 0⟩
    (by decide)

theorem groupWritePred_congr (today cutoff : Int)
    (fs1 fs2 : List (String × String)) (g : String × List FilteredRow)
    (h : getFile (hist_path g.1) fs1 = getFile (hist_path g.1) fs2) :
    groupWritePred today cutoff fs1 g = groupWritePred today cutoff fs2 g := by
  unfold groupWritePred
  cases parse_report_date g.1 with
  | none => rfl
  | some d => rw [h]

theorem groupExisting_congr (today cutoff : Int)
    (fs1 fs2 : List (String × String)) (g : String × List FilteredRow)
    (h : getFile (hist_path g.1) fs1 = getFile (hist_path g.1) fs2) :
    groupExisting today cutoff fs1 g = groupExisting today cutoff fs2 g := by
  unfold groupExisting
  cases parse_report_date g.1 with
  | none => rfl
  | some d => rw [h]

theorem backfillGo_characterization (today cutoff : Int)
    (gs : List (String × List FilteredRow)) :
    ∀ (w : World) (c se sor : Nat),
      (gs.map Prod.fst).Nodup → w.faults = [] →
      backfillGo today cutoff gs w c se sor =
        (⟨w.files ++ backfillEntries today cutoff w.files gs, w.faults,
          w.trace ++ backfillEntries today cutoff w.files gs⟩,
         .ok ⟨c + (gs.filter (groupWritePred today cutoff w.files)).length,
              se + (gs.filter (groupExisting today cutoff w.files)).length,
              sor + (gs.filter (groupOutOfRange today cutoff)).length⟩) := by
  induction gs with
  | nil =>
    intro w c se sor _ _
    simp [backfillGo, backfillEntries]
  | cons g0 rest ih =>
    intro w c se sor hnd hfaults
    obtain ⟨ds, rows⟩ := g0
    have hnd' : (rest.map Prod.fst).Nodup := (List.nodup_cons.mp hnd).2
    have hnotin : ds ∉ rest.map Prod.fst := (List.nodup_cons.mp hnd).1
    simp only [backfillGo]
    cases hpd : parse_report_date ds with
    | none =>
      rw [ih w c se sor hnd' hfaults]
      have hw : groupWritePred today cutoff w.files (ds, rows) = false := by
        simp [groupWritePred, hpd]
      have he : groupExisting today cutoff w.files (ds, rows) = false := by
        simp [groupExisting, hpd]
      have ho : groupOutOfRange today cutoff (ds, rows) = false := by
        simp [groupOutOfRange, hpd]
      simp [backfillEntries, List.filter_cons, hw, he, ho]
    | some d =>
      dsimp only
      by_cases hwin : today < d ∨ d < cutoff
      · have hwinT : (decide (today < d) || decide (d < cutoff)) = true := by
          rcases hwin with h | h
          · simp [h]
          · simp [h]
        rw [if_pos hwin, ih w c se (sor + 1) hnd' hfaults]
        have hw : groupWritePred today cutoff w.files (ds, rows) = false := by
          simp [groupWritePred, hpd, hwinT]
        have he : groupExisting today cutoff w.files (ds, rows) = false := by
          simp [groupExisting, hpd, hwinT]
        have ho : groupOutOfRange today cutoff (ds, rows) = true := by
          simp [groupOutOfRange, hpd, hwinT]
        have harith : sor + 1 +
            (rest.filter (groupOutOfRange today cutoff)).length =
              sor + ((rest.filter (groupOutOfRange today cutoff)).length + 1) := by
          omega
        simp only [backfillEntries, List.filter_cons, hw, he, ho,
          Bool.false_eq_true, if_false, if_true, List.length_cons, harith]
      · have hwinb : (decide (today < d) || decide (d < cutoff)) = false := by
          simp only [Bool.or_eq_false_iff, decide_eq_false_iff_not]
          exact ⟨fun h1 => hwin (Or.inl h1), fun h2 => hwin (Or.inr h2)⟩
        rw [if_neg hwin]
        by_cases hex : (getFile (hist_path ds) w.files).isSome = true
        · obtain ⟨cnt, hcnt⟩ := Option.isSome_iff_exists.mp hex
          rw [if_pos hex, ih w c (se + 1) sor hnd' hfaults]
          have hw : groupWritePred today cutoff w.files (ds, rows) = false := by
            simp [groupWritePred, hpd, hwinb, hcnt]
          have he : groupExisting today cutoff w.files (ds, rows) = true := by
            simp [groupExisting, hpd, hwinb, hcnt]
          have ho : groupOutOfRange today cutoff (ds, rows) = false := by
            simp [groupOutOfRange, hpd, hwinb]
          have harith : se + 1 +
              (rest.filter (groupExisting today cutoff w.files)).length =
                se + ((rest.filter (groupExisting today cutoff w.files)).length
                  + 1) := by
            omega
          simp only [backfillEntries, List.filter_cons, hw, he, ho,
            Bool.false_eq_true, if_false, if_true, List.length_cons, harith]
        · rw [if_neg hex]
          have hnone : getFile (hist_path ds) w.files = none :=
            Option.not_isSome_iff_eq_none.mp hex
          unfold writeFile
          rw [hfaults, if_neg (List.not_mem_nil _)]
          dsimp only
          rw [ih ⟨setFile (hist_path ds) (dumpRows rows) w.files, [],
            w.trace ++ [(hist_path ds, dumpRows rows)]⟩ (c + 1) se sor hnd' rfl]
          have hlook : ∀ g ∈ rest, getFile (hist_path g.1)
              (setFile (hist_path ds) (dumpRows rows) w.files) =
                getFile (hist_path g.1) w.files := by
            intro g hg
            rw [getFile_setFile]
            have hne : hist_path ds ≠ hist_path g.1 := by
              intro he
              exact hnotin
                (hist_path_injective he ▸ List.mem_map_of_mem Prod.fst hg)
            rw [if_neg hne]
          have hentries : backfillEntries today cutoff
              (setFile (hist_path ds) (dumpRows rows) w.files) rest =
                backfillEntries today cutoff w.files rest := by
            unfold backfillEntries
            rw [List.filter_congr (fun g hg =>
              groupWritePred_congr today cutoff _ _ g (hlook g hg))]
          have hfilterW : rest.filter (groupWritePred today cutoff
              (setFile (hist_path ds) (dumpRows rows) w.files)) =
                rest.filter (groupWritePred today cutoff w.files) := by
            rw [List.filter_congr (fun g hg =>
              groupWritePred_congr today cutoff _ _ g (hlook g hg))]
          have hfilterE : rest.filter (groupExisting today cutoff
              (setFile (hist_path ds) (dumpRows rows) w.files)) =
                rest.filter (groupExisting today cutoff w.files) := by
            rw [List.filter_congr (fun g hg =>
              groupExisting_congr today cutoff _ _ g (hlook g hg))]
          have hw : groupWritePred today cutoff w.files (ds, rows) = true := by
            simp [groupWritePred, hpd, hwinb, hnone]
          have he : groupExisting today cutoff w.files (ds, rows) = false := by
            simp [groupExisting, hpd, hwinb, hnone]
          have ho : groupOutOfRange today cutoff (ds, rows) = false := by
            simp [groupOutOfRange, hpd, hwinb]
          have harith : c + 1 +
              (rest.filter (groupWritePred today cutoff w.files)).length =
                c + ((rest.filter (groupWritePred today cutoff w.files)).length
                  + 1) := by
            omega
          rw [setFile_of_getFile_none _ _ _ hnone] at hentries hfilterW hfilterE ⊢
          simp only [hentries, hfilterW, hfilterE, backfillEntries,
            List.filter_cons, hw, he, ho, Bool.false_eq_true, if_false, if_true,
            List.map_cons, List.length_cons, List.append_assoc,
            List.singleton_append, harith]

/-! ## C7: the backfill writes exactly the fresh in-window groups -/

/-- C7: one run of the History Backfiller (with distinct group dates, as
`group_by_date` produces, and a fault-free disk) appends exactly one
dated history file for each group whose reportDate parses and lies in the
inclusive window and whose path does not already exist; groups with valid
dates outside the window are counted in `skippedOutOfRange` and skipped,
groups whose dates fail to parse are skipped, existing files are counted
and left untouched, and no other file changes. -/
theorem backfill_writes_exactly_fresh_window_groups
    (grouped : List (String × List FilteredRow)) (today : Int) (w : World)
    (hnd : (grouped.map Prod.fst).Nodup) (hfaults : w.faults = []) :
    backfill_history grouped today w =
      (⟨w.files ++
          backfillEntries today (today - (DAYS_TO_BACKFILL : Int)) w.files grouped,
        w.faults,
        w.trace ++
          backfillEntries today (today - (DAYS_TO_BACKFILL : Int)) w.files grouped⟩,
       .ok ⟨(grouped.filter
              (groupWritePred today (today - (DAYS_TO_BACKFILL : Int)) w.files)).length,
            (grouped.filter
              (groupExisting today (today - (DAYS_TO_BACKFILL : Int)) w.files)).length,
            (grouped.filter
              (groupOutOfRange today (today - (DAYS_TO_BACKFILL : Int)))).length⟩) := by
  unfold backfill_history
  rw [backfillGo_characterization today (today - (DAYS_TO_BACKFILL : Int))
    grouped w 0 0 0 hnd hfaults]
  simp only [Nat.zero_add]

/-- Witness for C7 at the spec's scenario (today = 2025-06-15): the
75-days-old group 2025-04-01 is counted out-of-range, the unparseable
date is skipped, and the fresh in-window group 2025-06-01 is the one file
written. -/
theorem backfill_writes_exactly_fresh_window_groups_witness :
    backfill_history [("2025-04-01", []), ("2025-06-01", []), ("junk", [])]
        739417 ⟨[], [], []⟩ =
      (⟨[(hist_path "2025-06-01", dumpRows [])], [],
        [(hist_path "2025-06-01", dumpRows [])]⟩, .ok ⟨1, 0, 1⟩) :=
  (backfill_writes_exactly_fresh_window_groups
      [("2025-04-01", []), ("2025-06-01", []), ("junk", [])] 739417
      ⟨[], [], []⟩ (by decide) rfl).trans (by decide)
